import Mathlib

set_option maxRecDepth 4000

/-!
Verification of the step-through-mojo instrumentation engine
(`src/step_through_mojo.cpp`, `src/utils.cpp`) against its design notes.

Shallow embedding: debuggee memory reads, scratch allocation and memory
writes are supplied by an explicit environment; machine integers are `Nat`
with explicit truncation where the source wraps; bytes are `Nat` values as
written in the source byte arrays. String operations are defined over
`List Char` so that every definition evaluates by kernel reduction.
-/

/-! ## Character-list string primitives (std::string operations) -/

/-- `std::string::ends_with` on character lists: does `l` end with
`suffix`? (If `suffix` is longer than `l`, the dropped list is `l` itself
and the lengths differ, so the comparison is false.) -/
def endsWithChars (l suffix : List Char) : Bool :=
  suffix == l.drop (l.length - suffix.length)

/-- `std::string::ends_with`. -/
def endsWithStr (s suffix : String) : Bool :=
  endsWithChars s.data suffix.data

/-- Does `l` start with the pattern `p`? -/
def startsWithChars : List Char → List Char → Bool
  | _, [] => true
  | [], _ :: _ => false
  | c :: cs, p :: ps => c == p && startsWithChars cs ps

/-- `std::string::find(pattern) != npos`: does `l` contain `p` as a
contiguous run? -/
def containsChars (p : List Char) : List Char → Bool
  | [] => p.isEmpty
  | c :: rest => startsWithChars (c :: rest) p || containsChars p rest

/-- Split a character list on a separator character; consecutive
separators yield empty tokens, as in `std::string::find`-based splitting. -/
def splitOnChar (sep : Char) : List Char → List (List Char)
  | [] => [[]]
  | c :: rest =>
    match splitOnChar sep rest with
    | [] => [[]]
    | t :: ts => if c = sep then [] :: t :: ts else (c :: t) :: ts

/-- The whitespace set of `utils::Trim` (`" \t\n\r\f\v"`). -/
def isTrimChar (c : Char) : Bool :=
  c == ' ' || c == '\t' || c == '\n' || c == '\r' || c == '\x0c' || c == '\x0b'

/-- `utils::Trim` on character lists: strip leading and trailing
whitespace (`find_first_not_of` / `find_last_not_of`; all-whitespace
input gives `[]`). -/
def trimChars (l : List Char) : List Char :=
  ((l.dropWhile isTrimChar).reverse.dropWhile isTrimChar).reverse

/-! ## Signature catalog byte patterns -/

/-- Byte pattern `HookReleaseNoConfigChanges::original_code_`:
the 17 bytes at the start of the unoptimized-release form of
`HandleValidatedMessage` (push sequence + `sub rsp, 1F0h`). -/
def originalCode1 : List Nat :=
  [0x41, 0x57,
   0x41, 0x56,
   0x41, 0x54,
   0x56,
   0x57,
   0x55,
   0x53,
   0x48, 0x81, 0xEC, 0xF0, 0x01, 0x00, 0x00]

/-- Byte pattern `HookReleaseNoConfigChanges::hook_code_` (71 bytes). -/
def hookCode1 : List Nat :=
  [0x50,
   0x51,
   0x52,
   0x53,
   0x48, 0x89, 0xD0,
   0x48, 0x85, 0xC0,
   0x74, 0x1A,
   0x48, 0x8B, 0x40, 0x18,
   0x48, 0x85, 0xC0,
   0x74, 0x11,
   0x8B, 0x40, 0x10,
   0x25, 0x00, 0x00, 0x00, 0x20,
   0x74, 0x07,
   0xCC,
   0x90, 0x90, 0x90, 0x90, 0x90, 0x90,
   0x5B,
   0x5A,
   0x59,
   0x58,
   0x41, 0x57,
   0x41, 0x56,
   0x41, 0x54,
   0x56,
   0x57,
   0x55,
   0x53,
   0x48, 0x81, 0xEC, 0xF0, 0x01, 0x00, 0x00,
   0x48, 0xB8, 0x00, 0x00, 0x00, 0x00, 0x00, 0x00, 0x00, 0x00,
   0xFF, 0xE0]

/-- Byte pattern `HookReleaseWithConfigNoOptimize::hook_code_` (78 bytes). -/
def hookCode2 : List Nat :=
  [0x50,
   0x51,
   0x52,
   0x53,
   0x48, 0x89, 0xD0,
   0x48, 0x85, 0xC0,
   0x74, 0x1A,
   0x48, 0x8B, 0x40, 0x18,
   0x48, 0x85, 0xC0,
   0x74, 0x11,
   0x8B, 0x40, 0x10,
   0x25, 0x00, 0x00, 0x00, 0x20,
   0x74, 0x07,
   0xCC,
   0x90, 0x90, 0x90, 0x90, 0x90, 0x90,
   0x5B,
   0x5A,
   0x59,
   0x58,
   0x90, 0x90, 0x90, 0x90, 0x90, 0x90, 0x90,
   0x48, 0xB8, 0x00, 0x00, 0x00, 0x00, 0x00, 0x00, 0x00, 0x00,
   0x48, 0x8B, 0x00,
   0x48, 0x31, 0xE0,
   0x49, 0xBB, 0x00, 0x00, 0x00, 0x00, 0x00, 0x00, 0x00, 0x00,
   0x41, 0xFF, 0xE3]

/-- One exact compiled form accepted by
`HookReleaseWithConfigNoOptimize::CheckSignature`: the golden sequence
from the disassembly in the source comment
(`sub rsp,778h`; `mov rax,[rip+0D64B892h]`; `xor rax,rsp`). -/
def goldenCode2 : List Nat :=
  [0x48, 0x81, 0xEC, 0x78, 0x07, 0x00, 0x00,
   0x48, 0x8B, 0x05, 0x92, 0xB8, 0x64, 0x0D,
   0x48, 0x31, 0xE0]

/-- The byte positions of `goldenCode2` that `CheckSignature` compares; the
complement (the two 4-byte immediates at 3..6 and 10..13) is wildcard. -/
def checkedPositions2 : List Nat := [0, 1, 2, 7, 8, 9, 14, 15, 16]

/-- `HookDefinition::CheckSignature(target, expected)`: the protected
byte-for-byte helper. A read outcome is `none` for a failed `ReadVirtual`;
a successful read of fewer bytes than requested is a shorter list, which
the source rejects (`bytes_read != current_bytes.size()`), as does the
`memcmp`; both are covered by list equality. -/
def checkSignatureBytes (expected : List Nat) (readResult : Option (List Nat)) : Bool :=
  match readResult with
  | none => false
  | some bs => bs == expected

/-- `HookReleaseNoConfigChanges::CheckSignature`: direct byte comparison
against `original_code_`. -/
def checkSignature1 (readResult : Option (List Nat)) : Bool :=
  checkSignatureBytes originalCode1 readResult

/-- `HookReleaseWithConfigNoOptimize::CheckSignature`: reads 17 bytes and
compares the three opcode groups, skipping the two 4-byte immediates. -/
def checkSignature2 (readResult : Option (List Nat)) : Bool :=
  match readResult with
  | none => false
  | some bs =>
    bs.length == 17 &&
    (bs.getD 0 0 == 0x48 && bs.getD 1 0 == 0x81 && bs.getD 2 0 == 0xEC) &&
    (bs.getD 7 0 == 0x48 && bs.getD 8 0 == 0x8B && bs.getD 9 0 == 0x05) &&
    (bs.getD 14 0 == 0x48 && bs.getD 15 0 == 0x31 && bs.getD 16 0 == 0xE0)

/-! ## Stepping state machine: the Scanning decision
(`StepThroughHandleValidatedMessage`) -/

/-- The interception symbol `kHandleValidatedMessageSymbol`. -/
def kHandleValidatedMessageSymbol : String :=
  "mojo::InterfaceEndpointClient::HandleValidatedMessage"

/-- A symbol at which the frame-depth count stops (the loop over
`call_stack` breaks at these suffixes). -/
def isAnchorSymbol (s : String) : Bool :=
  endsWithStr s kHandleValidatedMessageSymbol ||
  endsWithStr s "::Accept" ||
  endsWithStr s "::AcceptWithResponder"

/-- `frame_depth`: the number of topmost frames before the first anchor
symbol. -/
def frameDepth (callStack : List String) : Nat :=
  (callStack.takeWhile (fun s => !(isAnchorSymbol s))).length

/-- `kMaxFrameDepth` in `StepThroughHandleValidatedMessage`. -/
def kMaxFrameDepth : Nat := 6

/-- The outcome of one iteration of the scanning loop: terminate (`found`,
`aborted`) or issue one debugger step followed by a focus restore. -/
inductive ScanAction where
  | found
  | aborted
  | steppingOut
  | steppingOver
  | steppingInto
deriving DecidableEq, Repr

/-- One iteration of the scanning loop in
`StepThroughHandleValidatedMessage`, given the call-stack query result and
the current source file name. The source reads `call_stack[0]` with no
emptiness guard; `none` models that out-of-bounds access on an empty
query result. -/
def scanDecision (callStack : List String) (fileName : String) : Option ScanAction :=
  let fd := frameDepth callStack
  match callStack.head? with
  | none => none
  | some top =>
    if (endsWithStr top "::Accept" || endsWithStr top "::AcceptWithResponder") &&
        endsWithStr fileName ".mojom.cc" then
      some ScanAction.found
    else if fd == kMaxFrameDepth then
      some ScanAction.aborted
    else if fd ≥ 2 then
      some ScanAction.steppingOut
    else if fd == 1 then
      some ScanAction.steppingOver
    else
      some ScanAction.steppingInto

/-! ## `utils::GetTopOfCallStack` output parsing -/

/-- Everything after the first space of a line
(`line.substr(line.find(' ') + 1)`), or `none` when the line has no space. -/
def afterFirstSpace : List Char → Option (List Char)
  | [] => none
  | c :: rest => if c = ' ' then some rest else afterFirstSpace rest

/-- The parsing part of `utils::GetTopOfCallStack`, applied to the raw
text of the `kc`/`kp` command: split into lines (`SplitString` with
combined consecutive delimiters, hence the non-empty filter), skip empty
lines and the "Call Site" header, keep the trimmed text after each frame
number when it is non-empty. -/
def getTopOfCallStack (commandOutput : String) : List String :=
  (((splitOnChar '\n' commandOutput.data).filter (fun t => !t.isEmpty)).filterMap
    (fun line =>
      if line.isEmpty then none
      else if containsChars "Call Site".data line then none
      else
        match afterFirstSpace line with
        | none => none
        | some rest =>
          let symbol := trimChars rest
          if symbol.isEmpty then none else some (String.mk symbol)))

/-! ## Hook variants, trampoline construction (`ApplyHook`) -/

/-- The two concrete hook variants registered in `g_hook_definitions`. -/
inductive HookDef where
  | releaseNoConfigChanges
  | releaseWithConfigNoOptimize
deriving DecidableEq, Repr

/-- `GetName()` of a variant. -/
def hookDefName : HookDef → String
  | HookDef.releaseNoConfigChanges => "HookReleaseNoConfigChanges"
  | HookDef.releaseWithConfigNoOptimize => "HookReleaseWithConfigNoOptimize"

/-- `g_hook_definitions`, in registration order. -/
def hookDefList : List HookDef :=
  [HookDef.releaseNoConfigChanges, HookDef.releaseWithConfigNoOptimize]

/-- `struct HookInstance` (all integer fields zero-initialized). -/
structure HookInstance where
  process_id : Nat
  target_address : Nat
  hook_address : Nat
  hook_allocated_memory_size : Nat
  jump_target : Nat
  int3_address : Nat
  hook_definition : Option HookDef
  module_name : String
deriving DecidableEq, Repr

/-- Observable debuggee-side operations of the patch engine, recorded so
that "performs no signature check / allocation / write" is a statement
about a trace. -/
inductive Effect where
  | sigCheck (variant : HookDef)
  | allocScratch
  | writeMem (addr : Nat) (bytes : List Nat)
deriving DecidableEq, Repr

/-- Debugger-side outcomes consumed by `ApplyHook`:
`readOrig` is the `ReadVirtual` of the 17 bytes at the target;
`alloc` is the parsed `.dvalloc` result (address, allocated size),
`none` when the command failed or its output did not parse;
`writeResult addr bytes` is the `bytes_written` of a `WriteVirtual`,
`none` for a FAILED HRESULT. -/
structure ApplyEnv where
  readOrig : Option (List Nat)
  alloc : Option (Nat × Nat)
  writeResult : Nat → List Nat → Option Nat

/-- Result of `ApplyHook`: the returned bool, the updated `HookInstance`,
and the trace of debuggee operations it performed. -/
structure ApplyResult where
  ok : Bool
  inst : HookInstance
  effects : List Effect

/-- Little-endian byte extraction `(v >> (i*8)) & 0xFF` for `i = 0..7`. -/
def leBytes8 (v : Nat) : List Nat :=
  (List.range 8).map (fun i => v / 256 ^ i % 256)

/-- Overwrite `bytes.length` entries of `l` starting at offset `off`
(the `for` loops writing into `hook_bytes`). -/
def writeAt (l : List Nat) (off : Nat) (bytes : List Nat) : List Nat :=
  l.take off ++ bytes ++ l.drop (off + bytes.length)

/-- `HookDefinition::GetPatchBytes`: `jmp qword ptr [rip+0]` followed by
the absolute hook address, padded with NOPs up to `size`. -/
def getPatchBytes (hookAddress : Nat) (size : Nat) : List Nat :=
  let patch := [0xFF, 0x25, 0x00, 0x00, 0x00, 0x00] ++ leBytes8 hookAddress
  if size > patch.length then patch ++ List.replicate (size - patch.length) 0x90
  else patch

/-- Reassemble `int32_t` from its 4 little-endian bytes
(`*reinterpret_cast<int32_t*>(&original_bytes[10])`, unsigned value). -/
def leDecode4 (bytes : List Nat) : Nat :=
  bytes.getD 0 0 + 256 * bytes.getD 1 0 + 256 ^ 2 * bytes.getD 2 0 + 256 ^ 3 * bytes.getD 3 0

/-- Interpret a 32-bit value as a signed `int32_t`. -/
def toInt32 (n : Nat) : Int :=
  if n < 2 ^ 31 then (n : Int) else (n : Int) - 2 ^ 32

/-- `security_cookie_addr = target_address + 14 + rip_offset` in `ULONG64`
arithmetic (sign-extended addition, wrapping mod 2^64). -/
def securityCookieAddr (target : Nat) (ripRaw : Nat) : Nat :=
  (((target : Int) + 14 + toInt32 ripRaw) % (2 ^ 64 : Int)).toNat

/-- The trampoline bytes written by `HookReleaseNoConfigChanges::ApplyHook`:
`hook_code_` with the jump target patched in at
`size - hook_code_jump_target_offset_` (= 71 - 10). -/
def assembledHookBytes1 (jumpTarget : Nat) : List Nat :=
  writeAt hookCode1 (hookCode1.length - 10) (leBytes8 jumpTarget)

/-- The trampoline bytes written by
`HookReleaseWithConfigNoOptimize::ApplyHook`: `hook_code_` with the
original `sub rsp` copied to offset 0x2A, the security-cookie address to
offset 0x33, and the jump target to `size - 11`. -/
def assembledHookBytes2 (originalBytes : List Nat) (cookieAddr jumpTarget : Nat) : List Nat :=
  writeAt
    (writeAt
      (writeAt hookCode2 0x2A (originalBytes.take 7))
      0x33 (leBytes8 cookieAddr))
    (hookCode2.length - 11) (leBytes8 jumpTarget)

/-- `HookReleaseNoConfigChanges::ApplyHook`. The `AllocateHookMemory`
HRESULT is not checked (on failure the instance fields keep their
zero-initialized values), both `WriteVirtual` outcomes are ignored, and
the function returns true unconditionally. -/
def applyHook1 (env : ApplyEnv) (inst0 : HookInstance) : ApplyResult :=
  let instA :=
    match env.alloc with
    | some a => { inst0 with hook_address := a.1, hook_allocated_memory_size := a.2 }
    | none => inst0
  let jumpTarget := instA.target_address + originalCode1.length
  let instB := { instA with
    int3_address := instA.hook_address + 31,
    jump_target := jumpTarget }
  let hookBytes := assembledHookBytes1 jumpTarget
  let patchBytes := getPatchBytes instB.hook_address originalCode1.length
  ⟨true, instB,
   [Effect.allocScratch,
    Effect.writeMem instB.hook_address hookBytes,
    Effect.writeMem instB.target_address patchBytes]⟩

/-- `HookReleaseWithConfigNoOptimize::ApplyHook`: fails on a failed or
short read of the 17 original bytes, on allocation failure, and on a
failed or short write of either the trampoline or the patch. -/
def applyHook2 (env : ApplyEnv) (inst0 : HookInstance) : ApplyResult :=
  match env.readOrig with
  | none => ⟨false, inst0, []⟩
  | some originalBytes =>
    if originalBytes.length ≠ 17 then ⟨false, inst0, []⟩
    else
      match env.alloc with
      | none => ⟨false, inst0, [Effect.allocScratch]⟩
      | some a =>
        let jumpTarget := inst0.target_address + 17
        let instA := { inst0 with
          hook_address := a.1,
          hook_allocated_memory_size := a.2,
          int3_address := a.1 + 31,
          jump_target := jumpTarget }
        let cookieAddr :=
          securityCookieAddr inst0.target_address (leDecode4 ((originalBytes.drop 10).take 4))
        let hookBytes := assembledHookBytes2 originalBytes cookieAddr jumpTarget
        let effsW1 := [Effect.allocScratch, Effect.writeMem instA.hook_address hookBytes]
        match env.writeResult instA.hook_address hookBytes with
        | none => ⟨false, instA, effsW1⟩
        | some w1 =>
          if w1 ≠ hookBytes.length then ⟨false, instA, effsW1⟩
          else
            let patchBytes := getPatchBytes instA.hook_address 17
            let effsW2 := effsW1 ++ [Effect.writeMem instA.target_address patchBytes]
            match env.writeResult instA.target_address patchBytes with
            | none => ⟨false, instA, effsW2⟩
            | some w2 =>
              if w2 ≠ patchBytes.length then ⟨false, instA, effsW2⟩
              else ⟨true, instA, effsW2⟩

/-- Virtual dispatch `HookDefinition::CheckSignature`. -/
def checkSignatureOf (d : HookDef) (readResult : Option (List Nat)) : Bool :=
  match d with
  | HookDef.releaseNoConfigChanges => checkSignature1 readResult
  | HookDef.releaseWithConfigNoOptimize => checkSignature2 readResult

/-- Virtual dispatch `HookDefinition::ApplyHook`. -/
def applyHookOf (d : HookDef) (env : ApplyEnv) (inst0 : HookInstance) : ApplyResult :=
  match d with
  | HookDef.releaseNoConfigChanges => applyHook1 env inst0
  | HookDef.releaseWithConfigNoOptimize => applyHook2 env inst0

/-! ## PatchModule and the HookInstance registry -/

/-- Debugger-side outcomes consumed by `PatchModule`: the current process
id (`GetCurrentProcessSystemId`), the resolved symbol address
(`GetOffsetByName`), the 17 bytes of debuggee memory at that address
(read by the signature checks and by the variant-2 `ApplyHook`), and the
allocation / write outcomes passed on to `ApplyHook`. -/
structure PatchEnv where
  pid : Option Nat
  resolveAddr : Option Nat
  mem : Option (List Nat)
  alloc : Option (Nat × Nat)
  writeResult : Nat → List Nat → Option Nat

/-- The `ApplyEnv` that `PatchModule` hands to the selected variant. -/
def applyEnvOf (env : PatchEnv) : ApplyEnv :=
  ⟨env.mem, env.alloc, env.writeResult⟩

/-- The draft `HookInstance` built in `PatchModule` before `ApplyHook`. -/
def initialInstance (pid target : Nat) (d : HookDef) (moduleName : String) : HookInstance :=
  ⟨pid, target, 0, 0, 0, 0, some d, moduleName⟩

/-- The first-match loop over `g_hook_definitions`: each try is one
signature check; the first variant whose `CheckSignature` passes wins. -/
def findMatchingDef (defs : List HookDef) (readResult : Option (List Nat)) :
    Option HookDef × List Effect :=
  match defs with
  | [] => (none, [])
  | d :: rest =>
    if checkSignatureOf d readResult then (some d, [Effect.sigCheck d])
    else
      let r := findMatchingDef rest readResult
      (r.1, Effect.sigCheck d :: r.2)

/-- `PatchModule`: returns the updated registry (`g_hook_instances`) and
the trace of debuggee operations performed. An already-installed
(process, module) key, a failed process-id read, an unresolved symbol, a
failed signature match, and a failed `ApplyHook` all leave the registry
unchanged. -/
def patchModule (env : PatchEnv) (moduleName : String) (g : List HookInstance) :
    List HookInstance × List Effect :=
  match env.pid with
  | none => (g, [])
  | some pid =>
    if g.any (fun h => h.process_id == pid && h.module_name == moduleName) then
      (g, [])
    else
      match env.resolveAddr with
      | none => (g, [])
      | some targetFunc =>
        match findMatchingDef hookDefList env.mem with
        | (none, effs) => (g, effs)
        | (some d, effs) =>
          let r := applyHookOf d (applyEnvOf env) (initialInstance pid targetFunc d moduleName)
          if r.ok then (g ++ [r.inst], effs ++ r.effects)
          else (g, effs ++ r.effects)

/-- Invariant: at most one registered `HookInstance` per
(process id, module name) key. -/
def atMostOnePerKey (g : List HookInstance) : Prop :=
  List.Pairwise
    (fun a b => ¬(a.process_id = b.process_id ∧ a.module_name = b.module_name)) g

/-! ## `utils::DebugContextGuard::RestoreIfChanged` -/

/-- Debugger focus identity: the current process and thread system ids.
Identity reads are modeled as total (a FAILED `GetCurrent*SystemId`
merely yields an early `false` in the source and is not modeled). -/
structure FocusState where
  pid : Nat
  tid : Nat
deriving DecidableEq, Repr

/-- The focus-changing operations `RestoreIfChanged` can issue. -/
inductive RestoreEffect where
  | selectProcess (pid : Nat)
  | selectThread (tid : Nat)
  | waitSuspend
deriving DecidableEq, Repr

/-- How the debugger focus reacts to `SetCurrentProcessId` /
`SetCurrentThreadId` followed by `WaitForBreakStatus` (the wait can move
focus again, so the outcome is environment-supplied). -/
structure RestoreEnv where
  afterSelectProcess : Nat → FocusState → FocusState
  afterSelectThread : Nat → FocusState → FocusState

/-- Result of `RestoreIfChanged`: returned bool, focus after the call,
operations issued. -/
structure RestoreResult where
  ok : Bool
  final : FocusState
  effects : List RestoreEffect

/-- `DebugContextGuard::RestoreIfChanged`. `isValid` is the flag set by a
successful capture at construction. The process is re-selected only when
the current process id differs from the captured one, and likewise for
the thread; the trailing identity re-read decides the return value. -/
def restoreIfChanged (env : RestoreEnv) (isValid : Bool) (original current : FocusState) :
    RestoreResult :=
  if !isValid then ⟨false, current, []⟩
  else
    let afterRestore :=
      if current.pid ≠ original.pid ∨ current.tid ≠ original.tid then
        let stepP :=
          if current.pid ≠ original.pid then
            (env.afterSelectProcess original.pid current,
             [RestoreEffect.selectProcess original.pid, RestoreEffect.waitSuspend])
          else (current, ([] : List RestoreEffect))
        let stepT :=
          if current.tid ≠ original.tid then
            (env.afterSelectThread original.tid stepP.1,
             stepP.2 ++ [RestoreEffect.selectThread original.tid, RestoreEffect.waitSuspend])
          else stepP
        stepT
      else (current, [])
    if afterRestore.1.pid = original.pid ∧ afterRestore.1.tid = original.tid then
      ⟨true, afterRestore.1, afterRestore.2⟩
    else ⟨false, afterRestore.1, afterRestore.2⟩

/-! ## Watched modules: `EnableStepThroughMojoInternal` and
`EventCallbacks::LoadModule` -/

/-- The `.dll`-extension normalization applied both when registering a
module name and when a module load is reported. -/
def normalizeModuleName (name : String) : String :=
  if endsWithStr name ".dll" then name else name ++ ".dll"

/-- The `g_modules` update of `EnableStepThroughMojoInternal`: append
every given name with `.dll` appended when missing; an empty list
registers the default `chrome.dll`. -/
def enableForModules (moduleNames : List String) (gModules : List String) : List String :=
  if moduleNames.isEmpty then gModules ++ ["chrome.dll"]
  else gModules ++ moduleNames.map normalizeModuleName

/-- The decision of `EventCallbacks::LoadModule`: `PatchModule` is invoked
exactly when the normalized loaded-module name equals (exact `std::string`
comparison) some entry of `g_modules`. -/
def loadModuleInvokesPatch (gModules : List String) (moduleName : String) : Bool :=
  gModules.any (fun target => normalizeModuleName moduleName == target)

/-- Modelled from the spec sentence "whose normalized name
(case-insensitive, extension-normalized) appears in WatchedModuleSet":
the comparison the spec describes, written to the spec's words, for
refinement comparison with `loadModuleInvokesPatch`. -/
def spec_loadModuleMatchCI (gModules : List String) (moduleName : String) : Bool :=
  gModules.any (fun target =>
    (normalizeModuleName moduleName).data.map Char.toLower == target.data.map Char.toLower)

/-! ## Claim theorems -/

/-- C10: invoked with an empty module-name list, the enable operation
registers exactly the single default module name `chrome.dll`; an
explicitly given name lacking a `.dll` suffix has `.dll` appended before
registration. -/
theorem enableForModules_default_and_normalization :
    (∀ g : List String, enableForModules [] g = g ++ ["chrome.dll"]) ∧
    (∀ name : String, endsWithStr name ".dll" = false →
      normalizeModuleName name = name ++ ".dll") ∧
    (∀ names g, names ≠ [] →
      enableForModules names g = g ++ names.map normalizeModuleName) := by
  refine ⟨fun g => rfl, fun name h => by simp [normalizeModuleName, h], ?_⟩
  intro names g h
  cases names with
  | nil => exact absurd rfl h
  | cons n rest => rfl

/-- Witness for `enableForModules_default_and_normalization`. -/
theorem enableForModules_default_and_normalization_witness :
    endsWithStr "content" ".dll" = false ∧
    normalizeModuleName "content" = "content.dll" :=
  ⟨by decide, enableForModules_default_and_normalization.2.1 "content" (by decide)⟩

/-- C8 as stated is false: a second identical invocation appends the same
normalized name again, so the stored watched-module list is not equal to
what it was after the first invocation. -/
theorem enableForModules_duplicates_watched_list :
    enableForModules ["chrome"] (enableForModules ["chrome"] []) =
      ["chrome.dll", "chrome.dll"] ∧
    enableForModules ["chrome"] [] = ["chrome.dll"] := by decide

/-- C8 amended: a second identical invocation appends the normalized
names again — the stored list gains duplicates and is not equal to the
first result — but membership in the watched set (what the load handler
consults) is unchanged by the repetition. -/
theorem enableForModules_membership_idempotent :
    (∀ names g m, m ∈ enableForModules names (enableForModules names g) ↔
      m ∈ enableForModules names g) ∧
    (∀ names g, enableForModules names (enableForModules names g) =
      enableForModules names g ++
        (if names.isEmpty then ["chrome.dll"] else names.map normalizeModuleName)) := by
  constructor
  · intro names g m
    by_cases h : names.isEmpty <;>
      simp [enableForModules, h, List.mem_append, or_assoc, or_self_iff]
  · intro names g
    by_cases h : names.isEmpty <;> simp [enableForModules, h]

/-- C7 as stated is false: the load handler compares exactly
(case-sensitively) — a loaded module `Chrome` does not match the watched
entry `chrome.dll`, although the case-insensitive comparison the spec
describes does match. -/
theorem loadModule_match_is_case_sensitive :
    loadModuleInvokesPatch ["chrome.dll"] "Chrome" = false ∧
    spec_loadModuleMatchCI ["chrome.dll"] "Chrome" = true := by decide

/-- C7 amended: the module-load handler invokes the patch engine iff the
loaded module's name, with `.dll` appended when missing, equals — by
exact, case-sensitive string comparison — an entry of the watched-module
list. -/
theorem loadModule_invokes_patch_iff_exact_member :
    (∀ g m, loadModuleInvokesPatch g m = true ↔ normalizeModuleName m ∈ g) ∧
    (∀ m, endsWithStr m ".dll" = true → normalizeModuleName m = m) ∧
    (∀ m, endsWithStr m ".dll" = false → normalizeModuleName m = m ++ ".dll") := by
  refine ⟨?_, fun m h => by simp [normalizeModuleName, h], fun m h => by simp [normalizeModuleName, h]⟩
  intro g m
  simp [loadModuleInvokesPatch, List.any_eq_true, beq_iff_eq]

/-- Witness for `loadModule_invokes_patch_iff_exact_member`. -/
theorem loadModule_invokes_patch_iff_exact_member_witness :
    loadModuleInvokesPatch ["content.dll"] "content" = true ∧
    endsWithStr "chrome.dll" ".dll" = true ∧
    normalizeModuleName "chrome.dll" = "chrome.dll" :=
  ⟨(loadModule_invokes_patch_iff_exact_member.1 ["content.dll"] "content").mpr (by decide),
   by decide,
   loadModule_invokes_patch_iff_exact_member.2.1 "chrome.dll" (by decide)⟩

/-- C9: the Scanning iteration reads `call_stack[0]` with no emptiness
guard: the step is well-defined exactly on non-empty call-stack query
results, and `GetTopOfCallStack` can return an empty list (e.g. a failed
stack command producing output with no parsable frame line). -/
theorem scanning_top_frame_unguarded_indexing :
    (∀ file, scanDecision [] file = none) ∧
    (∀ cs file, cs ≠ [] → (scanDecision cs file).isSome = true) ∧
    getTopOfCallStack "" = [] := by
  refine ⟨fun file => rfl, ?_, by decide⟩
  intro cs file h
  cases cs with
  | nil => exact absurd rfl h
  | cons c rest =>
    simp only [scanDecision, List.head?]
    repeat' split
    all_goals simp

/-- Witness for `scanning_top_frame_unguarded_indexing`. -/
theorem scanning_top_frame_unguarded_indexing_witness :
    (scanDecision ["chrome!foo"] "x.cc").isSome = true :=
  scanning_top_frame_unguarded_indexing.2.1 ["chrome!foo"] "x.cc" (by decide)

/-- C6: for each catalog variant, `CheckSignature` is true exactly when
every position outside the declared wildcard regions matches the golden
pattern (variant 1 compares all 17 bytes, variant 2 skips the two 4-byte
immediates), and it is false on a failed read and on a short read; being
total Lean functions, both embeddings return rather than throw. -/
theorem checkSignature_characterization :
    (∀ bs, checkSignature1 (some bs) = true ↔ bs = originalCode1) ∧
    checkSignature1 none = false ∧
    (∀ bs, checkSignature2 (some bs) = true ↔
      (bs.length = 17 ∧ ∀ i ∈ checkedPositions2, bs.getD i 0 = goldenCode2.getD i 0)) ∧
    checkSignature2 none = false := by
  have e0 : goldenCode2.getD 0 0 = 72 := by decide
  have e1 : goldenCode2.getD 1 0 = 129 := by decide
  have e2 : goldenCode2.getD 2 0 = 236 := by decide
  have e7 : goldenCode2.getD 7 0 = 72 := by decide
  have e8 : goldenCode2.getD 8 0 = 139 := by decide
  have e9 : goldenCode2.getD 9 0 = 5 := by decide
  have e14 : goldenCode2.getD 14 0 = 72 := by decide
  have e15 : goldenCode2.getD 15 0 = 49 := by decide
  have e16 : goldenCode2.getD 16 0 = 224 := by decide
  refine ⟨?_, rfl, ?_, rfl⟩
  · intro bs
    simp [checkSignature1, checkSignatureBytes]
  · intro bs
    constructor
    · intro h
      simp only [checkSignature2, Bool.and_eq_true, beq_iff_eq] at h
      obtain ⟨⟨⟨hlen, ⟨⟨h0, h1⟩, h2⟩⟩, ⟨⟨h7, h8⟩, h9⟩⟩, ⟨⟨h14, h15⟩, h16⟩⟩ := h
      refine ⟨hlen, ?_⟩
      intro i hi
      simp only [checkedPositions2, List.mem_cons, List.not_mem_nil, or_false] at hi
      rcases hi with rfl | rfl | rfl | rfl | rfl | rfl | rfl | rfl | rfl
      · rw [e0]; exact h0
      · rw [e1]; exact h1
      · rw [e2]; exact h2
      · rw [e7]; exact h7
      · rw [e8]; exact h8
      · rw [e9]; exact h9
      · rw [e14]; exact h14
      · rw [e15]; exact h15
      · rw [e16]; exact h16
    · intro h
      obtain ⟨hlen, hall⟩ := h
      have g0 := hall 0 (by decide); rw [e0] at g0
      have g1 := hall 1 (by decide); rw [e1] at g1
      have g2 := hall 2 (by decide); rw [e2] at g2
      have g7 := hall 7 (by decide); rw [e7] at g7
      have g8 := hall 8 (by decide); rw [e8] at g8
      have g9 := hall 9 (by decide); rw [e9] at g9
      have g14 := hall 14 (by decide); rw [e14] at g14
      have g15 := hall 15 (by decide); rw [e15] at g15
      have g16 := hall 16 (by decide); rw [e16] at g16
      simp only [checkSignature2, Bool.and_eq_true, beq_iff_eq]
      exact ⟨⟨⟨hlen, ⟨⟨g0, g1⟩, g2⟩⟩, ⟨⟨g7, g8⟩, g9⟩⟩, ⟨⟨g14, g15⟩, g16⟩⟩

/-- Witness for `checkSignature_characterization`: variant 2 accepts its
exact golden sequence, and rejects a flip of checked byte 2. -/
theorem checkSignature_characterization_witness :
    checkSignature2 (some goldenCode2) = true ∧
    checkSignature1 (some originalCode1) = true ∧
    checkSignature2
      (some [0x48, 0x81, 0xEB, 0x78, 0x07, 0x00, 0x00,
             0x48, 0x8B, 0x05, 0x92, 0xB8, 0x64, 0x0D,
             0x48, 0x31, 0xE0]) = false :=
  ⟨(checkSignature_characterization.2.2.1 goldenCode2).mpr ⟨by decide, by decide⟩,
   (checkSignature_characterization.1 originalCode1).mpr rfl,
   by
    have hiff := checkSignature_characterization.2.2.1
      [0x48, 0x81, 0xEB, 0x78, 0x07, 0x00, 0x00,
       0x48, 0x8B, 0x05, 0x92, 0xB8, 0x64, 0x0D,
       0x48, 0x31, 0xE0]
    by_contra hne
    have : ∀ i ∈ checkedPositions2,
        ([0x48, 0x81, 0xEB, 0x78, 0x07, 0x00, 0x00,
          0x48, 0x8B, 0x05, 0x92, 0xB8, 0x64, 0x0D,
          0x48, 0x31, 0xE0] : List Nat).getD i 0 = goldenCode2.getD i 0 :=
      (hiff.mp (eq_true_of_ne_false hne)).2
    have h2 := this 2 (by decide)
    revert h2
    decide⟩

/-- C3: the depth-rule table of the Scanning state: target top symbol plus
generated-dispatch file suffix gives `Found`; otherwise frame depth 6 (the
maximum scan depth, reached only with no anchor among the queried frames)
gives `Aborted`; otherwise depth ≥ 2 steps out, depth 1 steps over, and
depth 0 steps into. -/
theorem scanning_depth_rule_table (cs : List String) (top file : String)
    (h : cs.head? = some top) :
    scanDecision cs file = some (
      if (endsWithStr top "::Accept" || endsWithStr top "::AcceptWithResponder") &&
          endsWithStr file ".mojom.cc" then ScanAction.found
      else if frameDepth cs = kMaxFrameDepth then ScanAction.aborted
      else if 2 ≤ frameDepth cs then ScanAction.steppingOut
      else if frameDepth cs = 1 then ScanAction.steppingOver
      else ScanAction.steppingInto) := by
  simp only [scanDecision, h, beq_iff_eq, ge_iff_le]
  split_ifs <;> rfl

/-- Witness for `scanning_depth_rule_table`: a target top-of-stack symbol
with a non-matching source file falls through to the depth-0 rule. -/
theorem scanning_depth_rule_table_witness :
    scanDecision ["A::Accept"] "endpoint.cc" = some ScanAction.steppingInto :=
  (scanning_depth_rule_table ["A::Accept"] "A::Accept" "endpoint.cc" rfl).trans (by decide)

/-- A restore environment in which a reselect lands focus exactly where
asked (used by the C5 counterexample). -/
def cexRestoreEnv : RestoreEnv :=
  ⟨fun p s => ⟨p, s.tid⟩, fun t s => ⟨s.pid, t⟩⟩

/-- C5 as stated is false: when only the thread id differs from the
captured identity, `RestoreIfChanged` issues no process-reselect at all
(not "exactly one"); it issues only the thread-reselect and returns true. -/
theorem restoreIfChanged_no_process_reselect_when_only_thread_changed :
    (⟨1, 2⟩ : FocusState).tid ≠ (⟨1, 1⟩ : FocusState).tid ∧
    (restoreIfChanged cexRestoreEnv true ⟨1, 1⟩ ⟨1, 2⟩).effects.count
      (RestoreEffect.selectProcess 1) = 0 ∧
    (restoreIfChanged cexRestoreEnv true ⟨1, 1⟩ ⟨1, 2⟩).effects =
      [RestoreEffect.selectThread 1, RestoreEffect.waitSuspend] ∧
    (restoreIfChanged cexRestoreEnv true ⟨1, 1⟩ ⟨1, 2⟩).ok = true := by decide

/-- C5 amended: with both ids unchanged the call is a no-op returning
true; otherwise it issues one process-reselect (followed by a
suspend-wait) iff the process id differs and one thread-reselect
(followed by a suspend-wait) iff the thread id differs; it returns true
iff the re-read identity matches the captured one. -/
theorem restoreIfChanged_behavior :
    (∀ env orig cur, cur.pid = orig.pid → cur.tid = orig.tid →
      restoreIfChanged env true orig cur = ⟨true, cur, []⟩) ∧
    (∀ env orig cur,
      (restoreIfChanged env true orig cur).effects =
        (if cur.pid ≠ orig.pid then
          [RestoreEffect.selectProcess orig.pid, RestoreEffect.waitSuspend] else []) ++
        (if cur.tid ≠ orig.tid then
          [RestoreEffect.selectThread orig.tid, RestoreEffect.waitSuspend] else [])) ∧
    (∀ env orig cur,
      ((restoreIfChanged env true orig cur).ok = true ↔
        ((restoreIfChanged env true orig cur).final.pid = orig.pid ∧
         (restoreIfChanged env true orig cur).final.tid = orig.tid))) := by
  refine ⟨?_, ?_, ?_⟩
  · intro env orig cur h1 h2
    simp [restoreIfChanged, h1, h2]
  · intro env orig cur
    by_cases h1 : cur.pid = orig.pid <;> by_cases h2 : cur.tid = orig.tid <;>
      simp [restoreIfChanged, h1, h2] <;> split_ifs <;> rfl
  · intro env orig cur
    by_cases h1 : cur.pid = orig.pid <;> by_cases h2 : cur.tid = orig.tid <;>
      simp [restoreIfChanged, h1, h2] <;> split_ifs <;> simp_all

/-- Witness for `restoreIfChanged_behavior`: an unchanged identity is a
no-op returning true. -/
theorem restoreIfChanged_behavior_witness :
    restoreIfChanged cexRestoreEnv true ⟨3, 4⟩ ⟨3, 4⟩ = ⟨true, ⟨3, 4⟩, []⟩ :=
  restoreIfChanged_behavior.1 cexRestoreEnv ⟨3, 4⟩ ⟨3, 4⟩ rfl rfl

/-- Both `ApplyHook` variants only fill in trampoline-related fields of
the draft instance: the (process id, module name) key is preserved. -/
theorem applyHookOf_preserves_key (d : HookDef) (env : ApplyEnv) (inst0 : HookInstance) :
    (applyHookOf d env inst0).inst.process_id = inst0.process_id ∧
    (applyHookOf d env inst0).inst.module_name = inst0.module_name := by
  cases d
  · simp only [applyHookOf, applyHook1]
    cases env.alloc <;> simp
  · simp only [applyHookOf, applyHook2]
    repeat' split
    all_goals simp

/-- Appending an instance whose key occurs nowhere in the registry keeps
the one-instance-per-key invariant. -/
theorem atMostOnePerKey_append (g : List HookInstance) (x : HookInstance)
    (hg : atMostOnePerKey g)
    (hx : ∀ a ∈ g, ¬(a.process_id = x.process_id ∧ a.module_name = x.module_name)) :
    atMostOnePerKey (g ++ [x]) := by
  unfold atMostOnePerKey at *
  rw [List.pairwise_append]
  refine ⟨hg, List.pairwise_singleton _ _, ?_⟩
  intro a ha b hb
  simp only [List.mem_singleton] at hb
  subst hb
  exact hx a ha

/-- C4: when an instance already exists for the (process id, module name)
key, `PatchModule` is a silent no-op — the registry is returned unchanged
and the effect trace is empty, so no signature check, no scratch
allocation and no memory write happen — and every `PatchModule` call (the
only operation that writes the registry) preserves the
one-instance-per-key invariant. -/
theorem patchModule_idempotent_and_unique_key :
    (∀ env m g pid, env.pid = some pid →
      (∃ inst ∈ g, inst.process_id = pid ∧ inst.module_name = m) →
      patchModule env m g = (g, [])) ∧
    (∀ env m g, atMostOnePerKey g → atMostOnePerKey (patchModule env m g).1) := by
  constructor
  · intro env m g pid hpid hex
    obtain ⟨inst, hmem, hp, hm⟩ := hex
    have hany : g.any (fun h => h.process_id == pid && h.module_name == m) = true :=
      List.any_eq_true.mpr ⟨inst, hmem, by simp [hp, hm]⟩
    simp [patchModule, hpid, hany]
  · intro env m g hg
    cases hpid : env.pid with
    | none => simpa [patchModule, hpid] using hg
    | some pid =>
      by_cases hany : g.any (fun h => h.process_id == pid && h.module_name == m) = true
      · simpa [patchModule, hpid, hany] using hg
      · rw [Bool.not_eq_true] at hany
        cases hres : env.resolveAddr with
        | none => simpa [patchModule, hpid, hany, hres] using hg
        | some target =>
          rcases hfd : findMatchingDef hookDefList env.mem with ⟨fd, effs⟩
          cases fd with
          | none => simpa [patchModule, hpid, hany, hres, hfd] using hg
          | some d =>
            by_cases hok :
                (applyHookOf d (applyEnvOf env) (initialInstance pid target d m)).ok = true
            · have hres1 : (patchModule env m g).1 =
                  g ++ [(applyHookOf d (applyEnvOf env) (initialInstance pid target d m)).inst] := by
                simp [patchModule, hpid, hany, hres, hfd, hok]
              rw [hres1]
              have hkey := applyHookOf_preserves_key d (applyEnvOf env)
                (initialInstance pid target d m)
              simp only [initialInstance] at hkey
              apply atMostOnePerKey_append g _ hg
              intro a ha hcontra
              have hPa : (a.process_id == pid && a.module_name == m) = true := by
                rw [hcontra.1.trans hkey.1, hcontra.2.trans hkey.2]
                simp
              have : g.any (fun h => h.process_id == pid && h.module_name == m) = true :=
                List.any_eq_true.mpr ⟨a, ha, hPa⟩
              rw [hany] at this
              exact absurd this (by simp)
            · have hres1 : (patchModule env m g).1 = g := by
                simp [patchModule, hpid, hany, hres, hfd, hok]
              rw [hres1]
              exact hg

/-- A fully successful patch environment for process 7, target address
4096, scratch memory at 8192 (used by witnesses and counterexamples). -/
def okPatchEnv : PatchEnv :=
  ⟨some 7, some 4096, some originalCode1, some (8192, 8192), fun _ b => some b.length⟩

/-- A registry entry for key (7, chrome.dll), as a successful earlier
patch would have produced it. -/
def existingInst : HookInstance :=
  ⟨7, 4096, 8192, 8192, 4113, 8223, some HookDef.releaseNoConfigChanges, "chrome.dll"⟩

/-- Witness for `patchModule_idempotent_and_unique_key`: with the key
already registered, even a fully functional environment produces no
second patch and no effects. -/
theorem patchModule_idempotent_and_unique_key_witness :
    patchModule okPatchEnv "chrome.dll" [existingInst] = ([existingInst], []) :=
  patchModule_idempotent_and_unique_key.1 okPatchEnv "chrome.dll" [existingInst] 7 rfl
    ⟨existingInst, List.mem_singleton.mpr rfl, rfl, rfl⟩

/-- C1 as stated is false for `HookReleaseNoConfigChanges`: with scratch
allocation and every memory write failing, its `ApplyHook` still returns
true — and its trampoline write goes to the zero-initialized hook
address 0. -/
theorem applyHook_noConfigChanges_true_on_failure :
    (applyHookOf HookDef.releaseNoConfigChanges
      ⟨none, none, fun _ _ => none⟩
      (initialInstance 7 4096 HookDef.releaseNoConfigChanges "chrome.dll")).ok = true ∧
    (applyHookOf HookDef.releaseNoConfigChanges
      ⟨none, none, fun _ _ => none⟩
      (initialInstance 7 4096 HookDef.releaseNoConfigChanges "chrome.dll")).effects.getD 1
        Effect.allocScratch = Effect.writeMem 0 (assembledHookBytes1 4113) := by
  constructor
  · rfl
  · rfl

/-- The trampoline bytes the variant-2 `ApplyHook` writes for a draft
instance and the 17 original bytes it read: cookie address from the
rip-relative offset at bytes 10..13, jump target at target + 17. -/
def hookBytes2For (inst0 : HookInstance) (bs : List Nat) : List Nat :=
  assembledHookBytes2 bs
    (securityCookieAddr inst0.target_address (leDecode4 ((bs.drop 10).take 4)))
    (inst0.target_address + 17)

/-- C1 amended: `HookReleaseWithConfigNoOptimize::ApplyHook` returns
false whenever any memory operation it performs fails: its original-bytes
read fails or returns fewer than 17 bytes, its scratch allocation fails,
its trampoline write fails or writes fewer bytes than requested, or its
patch write fails or writes fewer bytes than requested.
`HookReleaseNoConfigChanges::ApplyHook` ignores the outcome of its memory
operations and returns true unconditionally; and `PatchModule` never
registers an attempt whose `ApplyHook` returned false — the registry is
unchanged by such an attempt. -/
theorem applyHook_failure_and_registration :
    (∀ env inst0,
      (env.readOrig = none ∨
       (∃ bs, env.readOrig = some bs ∧ bs.length ≠ 17) ∨
       env.alloc = none ∨
       (∃ bs a, env.readOrig = some bs ∧ bs.length = 17 ∧ env.alloc = some a ∧
          env.writeResult a.1 (hookBytes2For inst0 bs) ≠
            some (hookBytes2For inst0 bs).length) ∨
       (∃ bs a, env.readOrig = some bs ∧ bs.length = 17 ∧ env.alloc = some a ∧
          env.writeResult inst0.target_address (getPatchBytes a.1 17) ≠
            some (getPatchBytes a.1 17).length)) →
      (applyHookOf HookDef.releaseWithConfigNoOptimize env inst0).ok = false) ∧
    (∀ env inst0, (applyHookOf HookDef.releaseNoConfigChanges env inst0).ok = true) ∧
    (∀ env m g pid target d,
      env.pid = some pid → env.resolveAddr = some target →
      (findMatchingDef hookDefList env.mem).1 = some d →
      (applyHookOf d (applyEnvOf env) (initialInstance pid target d m)).ok = false →
      (patchModule env m g).1 = g) := by
  refine ⟨?_, ?_, ?_⟩
  · intro env inst0 hfail
    rcases hfail with h | ⟨bs, hbs, hlen⟩ | h |
      ⟨bs, a, hbs, hlen, ha, hw⟩ | ⟨bs, a, hbs, hlen, ha, hw⟩
    · simp [applyHookOf, applyHook2, h]
    · simp [applyHookOf, applyHook2, hbs, hlen]
    · cases hr : env.readOrig with
      | none => simp [applyHookOf, applyHook2, hr]
      | some bs =>
        by_cases hlen : bs.length = 17
        · simp [applyHookOf, applyHook2, hr, hlen, h]
        · simp [applyHookOf, applyHook2, hr, hlen]
    · simp only [hookBytes2For] at hw
      simp [applyHookOf, applyHook2, hbs, hlen, ha]
      repeat' split
      all_goals simp_all
    · simp [applyHookOf, applyHook2, hbs, hlen, ha]
      repeat' split
      all_goals simp_all
  · intro env inst0
    simp [applyHookOf, applyHook1]
  · intro env m g pid target d hpid hres hfd hok
    by_cases hany : g.any (fun h => h.process_id == pid && h.module_name == m) = true
    · simp [patchModule, hpid, hany]
    · rw [Bool.not_eq_true] at hany
      rcases hfd2 : findMatchingDef hookDefList env.mem with ⟨fd, effs⟩
      rw [hfd2] at hfd
      simp only at hfd
      subst hfd
      simp [patchModule, hpid, hany, hres, hfd2, hok]

/-- Witness for `applyHook_failure_and_registration`: read, allocation
and the trampoline write (to scratch address 8192) all succeed, only the
patch write to the target address 4096 fails — and `ApplyHook` returns
false. -/
theorem applyHook_failure_and_registration_witness :
    (applyHookOf HookDef.releaseWithConfigNoOptimize
      ⟨some goldenCode2, some (8192, 8192),
       fun addr b => if addr = 8192 then some b.length else none⟩
      (initialInstance 7 4096 HookDef.releaseWithConfigNoOptimize "chrome.dll")).ok = false :=
  applyHook_failure_and_registration.1 _ _
    (Or.inr (Or.inr (Or.inr (Or.inr
      ⟨goldenCode2, (8192, 8192), rfl, by decide, rfl, by decide⟩))))

/-- The environment of a fully successful variant-2 hook application on a
target whose first 17 bytes are `goldenCode2` (target 4096, scratch 8192). -/
def noOptimizeApplyEnv : ApplyEnv :=
  ⟨some goldenCode2, some (8192, 8192), fun _ b => some b.length⟩

/-- The draft instance for that application. -/
def noOptimizeInst : HookInstance :=
  initialInstance 7 4096 HookDef.releaseWithConfigNoOptimize "chrome.dll"

/-- The trampoline those inputs produce (jump target 4096 + 17 = 4113). -/
def noOptimizeTrampoline : List Nat :=
  assembledHookBytes2 goldenCode2
    (securityCookieAddr 4096 (leDecode4 ((goldenCode2.drop 10).take 4))) 4113

/-- C2 as stated is false for `HookReleaseWithConfigNoOptimize`: a fully
successful `ApplyHook` on the golden 17 overwritten bytes writes a
trampoline whose original-instructions region (starting at offset 0x2A)
is not byte-for-byte equal to those 17 bytes — the rip-relative load is
re-encoded as `mov rax, imm64`. -/
theorem trampoline_slot_not_byte_identical :
    (applyHookOf HookDef.releaseWithConfigNoOptimize noOptimizeApplyEnv noOptimizeInst).ok = true ∧
    (applyHookOf HookDef.releaseWithConfigNoOptimize noOptimizeApplyEnv
        noOptimizeInst).effects.getD 1 Effect.allocScratch =
      Effect.writeMem 8192 noOptimizeTrampoline ∧
    ((noOptimizeTrampoline.drop 42).take 17 ≠ goldenCode2) ∧
    checkSignature2 (some goldenCode2) = true := by decide

/-- C2 amended: for `HookReleaseNoConfigChanges` the 17-byte
original-instructions slot (trampoline offsets 42..58) equals
`original_code_`, which the signature check guarantees to be exactly the
bytes about to be overwritten, so the round-trip holds byte-for-byte.
For `HookReleaseWithConfigNoOptimize` only the 7-byte `sub rsp`
instruction is copied verbatim into the slot, and the re-emitted
`xor rax, rsp` (offsets 62..64) coincides with bytes 14..16 of the
overwritten code as pinned by its signature check; the rip-relative load
is re-encoded, so full byte-for-byte equality fails (see the
counterexample). -/
theorem trampoline_original_slot_roundtrip :
    (∀ jt, ((assembledHookBytes1 jt).drop 42).take 17 = originalCode1) ∧
    (∀ bs, checkSignature1 (some bs) = true → bs = originalCode1) ∧
    (∀ b0 b1 b2 b3 b4 b5 b6 b7 b8 b9 b10 b11 b12 b13 b14 b15 b16 ca jt,
      ((assembledHookBytes2 [b0, b1, b2, b3, b4, b5, b6, b7, b8, b9, b10,
          b11, b12, b13, b14, b15, b16] ca jt).drop 42).take 7 =
        [b0, b1, b2, b3, b4, b5, b6] ∧
      ((assembledHookBytes2 [b0, b1, b2, b3, b4, b5, b6, b7, b8, b9, b10,
          b11, b12, b13, b14, b15, b16] ca jt).drop 62).take 3 =
        [0x48, 0x31, 0xE0]) ∧
    (∀ bs, checkSignature2 (some bs) = true →
      bs.getD 14 0 = 0x48 ∧ bs.getD 15 0 = 0x31 ∧ bs.getD 16 0 = 0xE0) := by
  refine ⟨fun _ => rfl, ?_, ?_, ?_⟩
  · intro bs h
    simpa [checkSignature1, checkSignatureBytes] using h
  · intro b0 b1 b2 b3 b4 b5 b6 b7 b8 b9 b10 b11 b12 b13 b14 b15 b16 ca jt
    exact ⟨rfl, rfl⟩
  · intro bs h
    simp only [checkSignature2, Bool.and_eq_true, beq_iff_eq] at h
    exact ⟨h.2.1.1, h.2.1.2, h.2.2⟩

/-- Witness for `trampoline_original_slot_roundtrip`: the golden variant-1
bytes pass its signature check and are what gets copied into the slot. -/
theorem trampoline_original_slot_roundtrip_witness :
    ((assembledHookBytes1 4113).drop 42).take 17 = originalCode1 ∧
    [0x41, 0x57, 0x41, 0x56, 0x41, 0x54, 0x56, 0x57, 0x55, 0x53,
     0x48, 0x81, 0xEC, 0xF0, 0x01, 0x00, 0x00] = originalCode1 :=
  ⟨trampoline_original_slot_roundtrip.1 4113,
   trampoline_original_slot_roundtrip.2.1
     [0x41, 0x57, 0x41, 0x56, 0x41, 0x54, 0x56, 0x57, 0x55, 0x53,
      0x48, 0x81, 0xEC, 0xF0, 0x01, 0x00, 0x00] (by decide)⟩
